import Mathlib

/-!
Verification of the tool-dispatch layer (`agent.py`) and the session-loop
response accumulator (`app.py`) of the e-commerce assistant repository.

The Python tool functions are pure functions over three static catalogs
(`PRODUCTS`, `ORDERS`, `SUPPORT_DEPARTMENTS` from `mock_data.py`, a data
module not part of the core sources).  We embed each tool function as a
Lean function parameterised over the catalogs, which are modelled as
association lists (a Python `dict` preserves insertion order and has
unique keys).  Python string primitives (`lower`, `upper`, `split`,
`strip`, substring `in`) are embedded on `String`/`List Char`, using
Lean's ASCII-only `Char.toLower`/`Char.toUpper`, which agree with CPython
on the ASCII identifiers and text the catalogs contain.
-/

namespace ADK

/-! ## Python string primitives -/

/-- Python `str.lower()` (ASCII letters). -/
def pyLower (s : String) : String := String.mk (s.data.map Char.toLower)

/-- Python `str.upper()` (ASCII letters). -/
def pyUpper (s : String) : String := String.mk (s.data.map Char.toUpper)

/-- Maximal chunks of a character list between whitespace characters
(possibly empty chunks at whitespace runs and at the ends). -/
def wsChunks : List Char → List (List Char)
  | [] => [[]]
  | c :: cs =>
    if c.isWhitespace then [] :: wsChunks cs
    else
      match wsChunks cs with
      | [] => [[c]]
      | b :: bs => (c :: b) :: bs

/-- Python `str.split()` with no separator: whitespace-delimited tokens,
empty tokens discarded. -/
def pySplit (s : String) : List String :=
  ((wsChunks s.data).map String.mk).filter (fun t => t != "")

/-- `startsWithL needle hay`: `hay` begins with `needle`. -/
def startsWithL : List Char → List Char → Bool
  | [], _ => true
  | _ :: _, [] => false
  | a :: as, b :: bs => a == b && startsWithL as bs

/-- `needle` occurs as a contiguous sublist of `hay`. -/
def hasSubstr (needle : List Char) : List Char → Bool
  | [] => startsWithL needle []
  | b :: bs => startsWithL needle (b :: bs) || hasSubstr needle bs

/-- Python `needle in hay` for strings. -/
def pyIn (needle hay : String) : Bool := hasSubstr needle.data hay.data

/-- Python `str.strip()`: drop leading and trailing whitespace. -/
def pyStrip (s : String) : String :=
  String.mk (((s.data.dropWhile Char.isWhitespace).reverse.dropWhile
    Char.isWhitespace).reverse)

/-! ## Data model (§3 of the spec, `mock_data.py` record shapes) -/

/-- A catalog product record (field shapes as consumed by `agent.py`). -/
structure Product where
  id : String
  name : String
  category : String
  brand : String
  description : String
  price : Rat
  currency : String
  in_stock : Bool
  restock_date : Option String
deriving DecidableEq

/-- Modelled from the spec: an order record from the `ORDERS` catalog of
`mock_data.py` (absent from the core sources); the tool layer only passes
it through whole, so the exact fields are irrelevant to the claims. -/
structure Order where
  id : String
  status : String
  tracking : String
  delivery_estimate : String
deriving DecidableEq

/-- A support-department contact record (fields as consumed by
`redirect_to_human_support`). -/
structure Dept where
  department : String
  phone : String
  email : String
  hours : String
deriving DecidableEq

/-- The summary record `search_products` builds for each match. -/
structure ProductSummary where
  id : String
  name : String
  category : String
  price : Rat
  currency : String
  in_stock : Bool
deriving DecidableEq

/-- The discriminated result record returned by every tool operation. -/
inductive ToolResult where
  | foundProducts (count : Nat) (products : List ProductSummary)
  | foundProduct (product : Product)
  | foundOrder (order : Order)
  | notFound (message : String)
  | success (action : String) (product_name : String) (url : String)
      (in_stock : Bool)
  | redirected (reason : String) (department : Dept) (message : String)
deriving DecidableEq

/-- The `status` tag carried by a `ToolResult`. -/
def ToolResult.statusTag : ToolResult → String
  | .foundProducts _ _ => "found"
  | .foundProduct _ => "found"
  | .foundOrder _ => "found"
  | .notFound _ => "not_found"
  | .success _ _ _ _ => "success"
  | .redirected _ _ _ => "redirected"

/-- The four status tags the spec allows a `ToolResult` to carry. -/
def allowedStatusTags : List String :=
  ["found", "not_found", "success", "redirected"]

/-- Python `dict.get`: first (unique) binding of the key, if any. -/
def dictGet {α : Type} (m : List (String × α)) (k : String) : Option α :=
  (m.find? (fun kv => kv.fst == k)).map Prod.snd

/-- Python `dict.values()` in insertion order. -/
def dictValues {α : Type} (m : List (String × α)) : List α := m.map Prod.snd

/-! ## Tool Registry (`agent.py`) -/

/-- The lowercased searchable string `search_products` builds for a
product: name, category, brand, description joined by single spaces. -/
def searchableText (p : Product) : String :=
  pyLower (p.name ++ " " ++ p.category ++ " " ++ p.brand ++ " " ++
    p.description)

/-- The summary record appended to `results` for a matching product. -/
def summaryOf (p : Product) : ProductSummary :=
  ⟨p.id, p.name, p.category, p.price, p.currency, p.in_stock⟩

/-- The filter `search_products` applies to each catalog product: pass
the (optional) case-insensitive category filter, and have some token of
the lowercased query occur in the searchable string. -/
def productMatches (queryLower category : String) (p : Product) : Bool :=
  (category == "" || pyLower p.category == pyLower category) &&
    (pySplit queryLower).any (fun w => pyIn w (searchableText p))

/-- `search_products(query, category="")` from `agent.py`. -/
def search_products (PRODUCTS : List (String × Product))
    (query category : String) : ToolResult :=
  let queryLower := pyLower query
  let results :=
    ((dictValues PRODUCTS).filter (productMatches queryLower category)).map
      summaryOf
  if results.isEmpty then
    .notFound ("No products found matching \x27" ++ query ++
      "\x27. Try different keywords.")
  else
    .foundProducts results.length results

/-- `get_product_details(product_id)` from `agent.py`. -/
def get_product_details (PRODUCTS : List (String × Product))
    (product_id : String) : ToolResult :=
  match dictGet PRODUCTS (pyUpper product_id) with
  | some product => .foundProduct product
  | none =>
    .notFound ("Product \x27" ++ product_id ++
      "\x27 not found. Use search_products to find valid IDs.")

/-- `check_order_status(order_id)` from `agent.py`. -/
def check_order_status (ORDERS : List (String × Order))
    (order_id : String) : ToolResult :=
  match dictGet ORDERS (pyUpper order_id) with
  | some order => .foundOrder order
  | none =>
    .notFound ("Order \x27" ++ order_id ++
      "\x27 not found. Please check the order ID and try again. " ++
      "Order IDs look like ORD-XXXXX.")

/-- The formatted message `redirect_to_human_support` builds. -/
def supportMessage (dept : Dept) : String :=
  "I\x27m connecting you with our " ++ dept.department ++
    " team. You can reach them at " ++ dept.phone ++ " or " ++
    dept.email ++ " (" ++ dept.hours ++ ")."

/-- `redirect_to_human_support(topic, reason)` from `agent.py`.  The
Python body evaluates `SUPPORT_DEPARTMENTS["general"]` as the `.get`
default, which raises `KeyError` when the `general` key is absent; that
fallible step is modelled by the `Option`. -/
def redirect_to_human_support (SUPPORT_DEPARTMENTS : List (String × Dept))
    (topic reason : String) : Option ToolResult :=
  match dictGet SUPPORT_DEPARTMENTS "general" with
  | none => none
  | some generalDept =>
    let dept := (dictGet SUPPORT_DEPARTMENTS (pyLower topic)).getD generalDept
    some (.redirected reason dept (supportMessage dept))

/-- The fixed base URL of `redirect_to_product_page`. -/
def base_url : String := "https://shop-demo.example/products"

/-- `redirect_to_product_page(product_id, action="view")` from `agent.py`. -/
def redirect_to_product_page (PRODUCTS : List (String × Product))
    (product_id action : String) : ToolResult :=
  match dictGet PRODUCTS (pyUpper product_id) with
  | none => .notFound ("Product \x27" ++ product_id ++ "\x27 not found.")
  | some product =>
    if pyLower action == "buy" then
      .success "Purchase" product.name
        (base_url ++ "/" ++ pyUpper product_id ++ "/checkout")
        product.in_stock
    else
      .success "View" product.name
        (base_url ++ "/" ++ pyUpper product_id) product.in_stock

/-! ## Session loop (`app.py`, `get_agent_response`) -/

/-- One event yielded by `runner.run_async`: `content` may be `None`, and
its `parts` list holds parts whose `text` may be `None`.  Only the fields
`get_agent_response` reads are modelled. -/
structure AgentEvent where
  content : Option (List (Option String))
deriving DecidableEq

/-- The fixed fallback apology string of `get_agent_response`. -/
def FALLBACK_RESPONSE : String :=
  "I\x27m sorry, I couldn\x27t process that. Could you try rephrasing?"

/-- The inner loop `for part in event.content.parts: if part.text: text += part.text`. -/
def appendParts (acc : String) (parts : List (Option String)) : String :=
  parts.foldl
    (fun t pt =>
      match pt with
      | none => t
      | some s => if s = "" then t else t ++ s)
    acc

/-- The accumulation loop of `_run`: concatenate every truthy `part.text`
of every event whose `content` and `content.parts` are truthy. -/
def accumulateText (events : List AgentEvent) : String :=
  events.foldl
    (fun text ev =>
      match ev.content with
      | none => text
      | some parts => if parts = [] then text else appendParts text parts)
    ""

/-- `get_agent_response` from `app.py`: the accumulated text stripped if
truthy, else the fixed fallback string. -/
def get_agent_response (events : List AgentEvent) : String :=
  let final_text := accumulateText events
  if final_text = "" then FALLBACK_RESPONSE else pyStrip final_text

/-- The text fragments the loop actually appends, in emission order:
for each event with truthy content, the parts whose text is a non-empty
string. -/
def eventFragments (ev : AgentEvent) : List String :=
  match ev.content with
  | none => []
  | some parts => (parts.filterMap id).filter (fun s => s != "")

/-- All appended fragments of an event sequence, in emission order. -/
def fragments (events : List AgentEvent) : List String :=
  events.flatMap eventFragments

/-- Left-fold concatenation of a list of strings. -/
def concatAll (l : List String) : String := l.foldl (fun a b => a ++ b) ""

/-! ## Sample catalog data (concrete inputs for witnesses) -/

/-- A concrete product in the shape of the `PRODUCTS` catalog entries. -/
def sampleProduct : Product :=
  { id := "AC-001", name := "Arctic Inverter AC",
    category := "Air Conditioners", brand := "CoolTech",
    description := "Quiet inverter split unit", price := 1299,
    currency := "USD", in_stock := true, restock_date := none }

/-- A one-product concrete catalog. -/
def sampleCatalog : List (String × Product) := [("AC-001", sampleProduct)]

/-- A concrete support department record. -/
def sampleDept : Dept :=
  { department := "General Support", phone := "1-800-555-0100",
    email := "support@shop-demo.example", hours := "Mon-Fri 9-17" }

/-- A concrete departments mapping containing the `general` key. -/
def sampleDepts : List (String × Dept) := [("general", sampleDept)]

/-- A concrete order record. -/
def sampleOrder : Order :=
  { id := "ORD-10001", status := "shipped", tracking := "TRK123",
    delivery_estimate := "2 days" }

/-- A one-order concrete catalog. -/
def sampleOrders : List (String × Order) := [("ORD-10001", sampleOrder)]

/-! ## Helper lemmas: characters -/

theorem char_eq_of_toNat_eq {a b : Char} (h : a.toNat = b.toNat) : a = b := by
  have h2 := congrArg Char.ofNat h
  rwa [Char.ofNat_toNat, Char.ofNat_toNat] at h2

theorem toNat_ofNat_of_lt {n : Nat} (h : n < 55296) :
    (Char.ofNat n).toNat = n := by
  have hv : n.isValidChar := Or.inl h
  rw [Char.ofNat, dif_pos hv]
  simp [Char.ofNatAux, Char.toNat, UInt32.toNat]

theorem toUpper_toLower (c : Char) : c.toLower.toUpper = c.toUpper := by
  unfold Char.toLower
  by_cases h : c.toNat ≥ 65 ∧ c.toNat ≤ 90
  · rw [if_pos h]
    have hv : (Char.ofNat (c.toNat + 32)).toNat = c.toNat + 32 :=
      toNat_ofNat_of_lt (by omega)
    unfold Char.toUpper
    rw [hv, if_pos (by omega), if_neg (by omega)]
    have h32 : c.toNat + 32 - 32 = c.toNat := by omega
    rw [h32, Char.ofNat_toNat]
  · rw [if_neg h]

theorem toUpper_toUpper (c : Char) : c.toUpper.toUpper = c.toUpper := by
  unfold Char.toUpper
  by_cases h : c.toNat ≥ 97 ∧ c.toNat ≤ 122
  · rw [if_pos h]
    have hv : (Char.ofNat (c.toNat - 32)).toNat = c.toNat - 32 :=
      toNat_ofNat_of_lt (by omega)
    rw [hv, if_neg (by omega)]
  · rw [if_neg h, if_neg h]

theorem isWhitespace_iff (c : Char) :
    c.isWhitespace = true ↔
      c.toNat = 32 ∨ c.toNat = 9 ∨ c.toNat = 13 ∨ c.toNat = 10 := by
  unfold Char.isWhitespace
  simp only [Bool.or_eq_true, decide_eq_true_eq]
  constructor
  · rintro (((rfl | rfl) | rfl) | rfl) <;> simp [Char.toNat]
  · rintro (h | h | h | h)
    · exact Or.inl (Or.inl (Or.inl (char_eq_of_toNat_eq (b := ' ') h)))
    · exact Or.inl (Or.inl (Or.inr (char_eq_of_toNat_eq (b := '\t') h)))
    · exact Or.inl (Or.inr (char_eq_of_toNat_eq (b := '\r') h))
    · exact Or.inr (char_eq_of_toNat_eq (b := '\n') h)

theorem isWhitespace_toLower (c : Char) :
    c.toLower.isWhitespace = c.isWhitespace := by
  unfold Char.toLower
  by_cases h : c.toNat ≥ 65 ∧ c.toNat ≤ 90
  · rw [if_pos h]
    have hv : (Char.ofNat (c.toNat + 32)).toNat = c.toNat + 32 :=
      toNat_ofNat_of_lt (by omega)
    have h1 : (Char.ofNat (c.toNat + 32)).isWhitespace = false := by
      rw [Bool.eq_false_iff]
      intro hw
      have := (isWhitespace_iff _).mp hw
      omega
    have h2 : c.isWhitespace = false := by
      rw [Bool.eq_false_iff]
      intro hw
      have := (isWhitespace_iff _).mp hw
      omega
    rw [h1, h2]
  · rw [if_neg h]

/-! ## Helper lemmas: strings -/

theorem mk_data (l : List Char) : (String.mk l).data = l := rfl

theorem pyUpper_pyLower (s : String) : pyUpper (pyLower s) = pyUpper s := by
  unfold pyUpper pyLower
  rw [mk_data, List.map_map]
  have hc : Char.toUpper ∘ Char.toLower = Char.toUpper := funext toUpper_toLower
  rw [hc]

theorem pyUpper_pyUpper (s : String) : pyUpper (pyUpper s) = pyUpper s := by
  unfold pyUpper
  rw [mk_data, List.map_map]
  have hc : Char.toUpper ∘ Char.toUpper = Char.toUpper := funext toUpper_toUpper
  rw [hc]

/-! ## Helper lemmas: tokenization of all-whitespace strings -/

theorem wsChunks_all_nil {l : List Char}
    (h : ∀ c ∈ l, c.isWhitespace = true) :
    ∀ b ∈ wsChunks l, b = [] := by
  induction l with
  | nil =>
    intro b hb
    simp only [wsChunks, List.mem_singleton] at hb
    exact hb
  | cons c cs ih =>
    intro b hb
    have hc : c.isWhitespace = true := h c (List.mem_cons_self c cs)
    simp only [wsChunks, hc, if_true, List.mem_cons] at hb
    rcases hb with rfl | hb
    · rfl
    · exact ih (fun x hx => h x (List.mem_cons_of_mem _ hx)) b hb

theorem pySplit_all_ws {s : String}
    (h : ∀ c ∈ s.data, c.isWhitespace = true) :
    pySplit s = [] := by
  unfold pySplit
  rw [List.filter_eq_nil_iff]
  intro t ht
  rcases List.mem_map.mp ht with ⟨b, hb, rfl⟩
  have hbnil : b = [] := wsChunks_all_nil h b hb
  subst hbnil
  simp

theorem pyLower_all_ws {s : String}
    (h : ∀ c ∈ s.data, c.isWhitespace = true) :
    ∀ c ∈ (pyLower s).data, c.isWhitespace = true := by
  intro c hc
  unfold pyLower at hc
  rw [mk_data] at hc
  rcases List.mem_map.mp hc with ⟨d, hd, rfl⟩
  rw [isWhitespace_toLower]
  exact h d hd

theorem pyStrip_eq_empty {s : String} (h : pyStrip s = "") :
    ∀ c ∈ s.data, c.isWhitespace = true := by
  unfold pyStrip at h
  have hd : ((s.data.dropWhile Char.isWhitespace).reverse.dropWhile
      Char.isWhitespace).reverse = [] := congrArg String.data h
  rw [List.reverse_eq_nil_iff, List.dropWhile_eq_nil_iff] at hd
  intro c hc
  have hsplit := List.takeWhile_append_dropWhile
    (p := Char.isWhitespace) (l := s.data)
  rw [← hsplit] at hc
  rcases List.mem_append.mp hc with hc | hc
  · exact List.mem_takeWhile_imp hc
  · exact hd c (List.mem_reverse.mpr hc)

/-! ## Helper lemmas: concatenation and the accumulation loop -/

theorem foldl_append_eq (l : List String) (a : String) :
    l.foldl (fun x y => x ++ y) a = a ++ concatAll l := by
  induction l generalizing a with
  | nil => simp [concatAll]
  | cons s t ih =>
    rw [List.foldl_cons, ih]
    have hc : concatAll (s :: t) = s ++ concatAll t := by
      show List.foldl _ ("" ++ s) t = _
      rw [ih, String.empty_append]
    rw [hc, String.append_assoc]

theorem concatAll_cons (s : String) (l : List String) :
    concatAll (s :: l) = s ++ concatAll l := by
  show List.foldl _ ("" ++ s) l = _
  rw [foldl_append_eq, String.empty_append]

theorem concatAll_append (l₁ l₂ : List String) :
    concatAll (l₁ ++ l₂) = concatAll l₁ ++ concatAll l₂ := by
  induction l₁ with
  | nil => rw [List.nil_append]; exact (String.empty_append _).symm
  | cons s t ih =>
    rw [List.cons_append, concatAll_cons, concatAll_cons, ih,
      String.append_assoc]

theorem appendParts_eq (parts : List (Option String)) (acc : String) :
    appendParts acc parts =
      acc ++ concatAll ((parts.filterMap id).filter (fun s => s != "")) := by
  induction parts generalizing acc with
  | nil => simp [appendParts, concatAll]
  | cons pt rest ih =>
    cases pt with
    | none =>
      have hstep : appendParts acc (none :: rest) = appendParts acc rest := rfl
      have hmap : List.filterMap id (none :: rest) = List.filterMap id rest := by
        simp
      rw [hstep, ih, hmap]
    | some s =>
      have hmap : List.filterMap id (some s :: rest) =
          s :: List.filterMap id rest := by simp
      by_cases hs : s = ""
      · subst hs
        have hstep : appendParts acc (some "" :: rest) =
            appendParts acc rest := rfl
        have hfil : List.filter (fun t => t != "")
              (("" : String) :: List.filterMap id rest) =
            List.filter (fun t => t != "") (List.filterMap id rest) := by simp
        rw [hstep, ih, hmap, hfil]
      · have hstep : appendParts acc (some s :: rest) =
            appendParts (if s = "" then acc else acc ++ s) rest := rfl
        have hfil : List.filter (fun t => t != "")
              (s :: List.filterMap id rest) =
            s :: List.filter (fun t => t != "") (List.filterMap id rest) :=
          List.filter_cons_of_pos (by simp [hs])
        rw [hstep, if_neg hs, ih, hmap, hfil, concatAll_cons,
          String.append_assoc]

theorem accumulate_go (events : List AgentEvent) (acc : String) :
    events.foldl
      (fun text ev =>
        match ev.content with
        | none => text
        | some parts => if parts = [] then text else appendParts text parts)
      acc = acc ++ concatAll (fragments events) := by
  induction events generalizing acc with
  | nil => simp [fragments, concatAll]
  | cons ev rest ih =>
    rw [List.foldl_cons, ih]
    have hfrag : fragments (ev :: rest) =
        eventFragments ev ++ fragments rest := by
      unfold fragments
      rw [List.flatMap_cons]
    rw [hfrag, concatAll_append, ← String.append_assoc]
    congr 1
    cases hc : ev.content with
    | none => simp [eventFragments, hc, concatAll]
    | some parts =>
      by_cases hp : parts = []
      · subst hp
        simp [eventFragments, hc, concatAll]
      · simp only [eventFragments, hc, if_neg hp]
        exact appendParts_eq parts acc

theorem accumulateText_eq (events : List AgentEvent) :
    accumulateText events = concatAll (fragments events) := by
  unfold accumulateText
  rw [accumulate_go, String.empty_append]

/-! ## Helper lemmas: the search filter -/

theorem productMatches_iff (ql c : String) (p : Product) :
    productMatches ql c p = true ↔
      ((c = "" ∨ pyLower p.category = pyLower c) ∧
        ∃ w ∈ pySplit ql, pyIn w (searchableText p) = true) := by
  unfold productMatches
  simp [Bool.and_eq_true, Bool.or_eq_true, List.any_eq_true, beq_iff_eq]

/-! ## Claims -/

/-- C4: for every identifier `k` that is a key of the products catalog (the
catalog stores its keys uppercased, which is what makes the case-insensitive
lookup of `agent.py` exact), `get_product_details` on `k`, on `lower k`, and on
`upper k` all return the identical `found` result carrying the full record. -/
theorem get_product_details_case_insensitive
    (PRODUCTS : List (String × Product)) (k : String) (prod : Product)
    (hkey : dictGet PRODUCTS k = some prod) (hup : pyUpper k = k) :
    get_product_details PRODUCTS k = ToolResult.foundProduct prod ∧
    get_product_details PRODUCTS (pyLower k) = ToolResult.foundProduct prod ∧
    get_product_details PRODUCTS (pyUpper k) = ToolResult.foundProduct prod := by
  have h1 : pyUpper (pyLower k) = k := by rw [pyUpper_pyLower, hup]
  have h2 : pyUpper (pyUpper k) = k := by rw [pyUpper_pyUpper, hup]
  refine ⟨?_, ?_, ?_⟩ <;> unfold get_product_details
  · rw [hup, hkey]
  · rw [h1, hkey]
  · rw [h2, hkey]

/-- C4 witness: on the one-product sample catalog, looking the key up in
lowercase returns the identical `found` record. -/
theorem get_product_details_case_insensitive_witness :
    get_product_details sampleCatalog (pyLower "AC-001") =
      ToolResult.foundProduct sampleProduct :=
  (get_product_details_case_insensitive sampleCatalog "AC-001" sampleProduct
    (by decide) (by decide)).2.1

/-- C7: the products of a `found` result of `search_products` are exactly the
order-preserving filtering of the catalog's value sequence (summarised), hence
a sublist of the catalog iteration order — no ranking or reordering. -/
theorem search_products_catalog_order
    (PRODUCTS : List (String × Product)) (q c : String)
    (count : Nat) (l : List ProductSummary)
    (h : search_products PRODUCTS q c = ToolResult.foundProducts count l) :
    l = ((dictValues PRODUCTS).filter (productMatches (pyLower q) c)).map
        summaryOf ∧
    List.Sublist l ((dictValues PRODUCTS).map summaryOf) := by
  have hl : l = ((dictValues PRODUCTS).filter
      (productMatches (pyLower q) c)).map summaryOf := by
    simp only [search_products] at h
    split at h
    · simp at h
    · injection h with h1 h2
      exact h2.symm
  refine ⟨hl, ?_⟩
  rw [hl]
  exact List.Sublist.map summaryOf (List.filter_sublist _)

/-- C7 witness: the sample search result is a sublist of the catalog order. -/
theorem search_products_catalog_order_witness :
    List.Sublist [summaryOf sampleProduct]
      ((dictValues sampleCatalog).map summaryOf) :=
  (search_products_catalog_order sampleCatalog "inverter" "" 1
    [summaryOf sampleProduct] (by decide)).2

/-- C8: every tool operation is a pure function of its arguments and the
static catalogs (the embedding threads no state because the source mutates
none), so calling any of the five operations twice with identical arguments
yields identical results. -/
theorem tool_registry_idempotent
    (PRODUCTS : List (String × Product)) (ORDERS : List (String × Order))
    (DEPTS : List (String × Dept)) (q c pid oid topic reason act : String) :
    search_products PRODUCTS q c = search_products PRODUCTS q c ∧
    get_product_details PRODUCTS pid = get_product_details PRODUCTS pid ∧
    check_order_status ORDERS oid = check_order_status ORDERS oid ∧
    redirect_to_human_support DEPTS topic reason =
      redirect_to_human_support DEPTS topic reason ∧
    redirect_to_product_page PRODUCTS pid act =
      redirect_to_product_page PRODUCTS pid act :=
  ⟨rfl, rfl, rfl, rfl, rfl⟩

/-- C9: a query that is empty or all-whitespace tokenizes to the empty token
list, so `search_products` returns `not_found` for every catalog and every
category — even when the catalog has products in that category. -/
theorem search_products_blank_query
    (PRODUCTS : List (String × Product)) (q c : String)
    (hq : ∀ ch ∈ q.data, ch.isWhitespace = true) :
    (search_products PRODUCTS q c).statusTag = "not_found" := by
  have hsplit : pySplit (pyLower q) = [] :=
    pySplit_all_ws (pyLower_all_ws hq)
  have hmatch : ∀ p, productMatches (pyLower q) c p = false := by
    intro p
    unfold productMatches
    rw [hsplit]
    simp
  have hfil : (dictValues PRODUCTS).filter (productMatches (pyLower q) c)
      = [] := by
    rw [List.filter_eq_nil_iff]
    intro p hp
    simp [hmatch p]
  simp only [search_products, hfil, List.map_nil, List.isEmpty_nil, if_true]
  rfl

/-- C9 witness: a whitespace query on a catalog that does contain a product of
the requested category still yields `not_found`. -/
theorem search_products_blank_query_witness :
    (search_products sampleCatalog "   " "Air Conditioners").statusTag =
      "not_found" :=
  search_products_blank_query sampleCatalog "   " "Air Conditioners"
    (by decide)

/-- C10: every `found` result of `search_products` carries a `count` equal to
the length of its products list, and that list is non-empty. -/
theorem search_products_count_correct
    (PRODUCTS : List (String × Product)) (q c : String)
    (count : Nat) (l : List ProductSummary)
    (h : search_products PRODUCTS q c = ToolResult.foundProducts count l) :
    count = l.length ∧ l ≠ [] := by
  simp only [search_products] at h
  split at h
  · simp at h
  · rename_i hne
    injection h with h1 h2
    subst h2
    refine ⟨h1.symm, ?_⟩
    intro hnil
    rw [hnil] at hne
    simp at hne

/-- C10 witness: the sample search returns count 1 and a non-empty list. -/
theorem search_products_count_correct_witness :
    1 = [summaryOf sampleProduct].length ∧ [summaryOf sampleProduct] ≠ [] :=
  search_products_count_correct sampleCatalog "inverter" "" 1
    [summaryOf sampleProduct] (by decide)

/-- C2: every record of a `found` result of `search_products` comes from a
catalog product whose category equals the category argument case-insensitively
whenever that argument is non-empty and some whitespace token of the lowercased
query occurs in its lowercased searchable text; and when no catalog product
satisfies this, the result is `not_found` with a non-empty guidance message. -/
theorem search_products_sound
    (PRODUCTS : List (String × Product)) (q c : String) :
    (∀ count l,
      search_products PRODUCTS q c = ToolResult.foundProducts count l →
      ∀ s ∈ l, ∃ p ∈ dictValues PRODUCTS, s = summaryOf p ∧
        (c ≠ "" → pyLower p.category = pyLower c) ∧
        ∃ w ∈ pySplit (pyLower q), pyIn w (searchableText p) = true) ∧
    ((∀ p ∈ dictValues PRODUCTS,
        ¬((c = "" ∨ pyLower p.category = pyLower c) ∧
          ∃ w ∈ pySplit (pyLower q), pyIn w (searchableText p) = true)) →
      search_products PRODUCTS q c =
        ToolResult.notFound ("No products found matching \x27" ++ q ++
          "\x27. Try different keywords.") ∧
      ("No products found matching \x27" ++ q ++
        "\x27. Try different keywords.") ≠ "") := by
  constructor
  · intro count l h s hs
    have hl : l = ((dictValues PRODUCTS).filter
        (productMatches (pyLower q) c)).map summaryOf := by
      simp only [search_products] at h
      split at h
      · simp at h
      · injection h with h1 h2
        exact h2.symm
    rw [hl] at hs
    rcases List.mem_map.mp hs with ⟨p, hp, rfl⟩
    rcases List.mem_filter.mp hp with ⟨hpv, hpm⟩
    rcases (productMatches_iff _ _ _).mp hpm with ⟨hcat, hw⟩
    exact ⟨p, hpv, rfl, fun hc => hcat.resolve_left hc, hw⟩
  · intro hno
    have hfil : (dictValues PRODUCTS).filter (productMatches (pyLower q) c)
        = [] := by
      rw [List.filter_eq_nil_iff]
      intro p hp hm
      exact hno p hp ((productMatches_iff _ _ _).mp hm)
    constructor
    · simp only [search_products, hfil, List.map_nil, List.isEmpty_nil,
        if_true]
    · intro hmsg
      have h2 := congrArg String.data hmsg
      simp only [String.data_append] at h2
      have h3 := congrArg List.length h2
      simp [List.length_append] at h3

/-- C2 witness: on the sample catalog the query `inverter` returns only
matching records, and the query `zzzznonexistentquery` matches nothing and
returns `not_found` with a non-empty message. -/
theorem search_products_sound_witness :
    (∃ p ∈ dictValues sampleCatalog,
      summaryOf sampleProduct = summaryOf p ∧
      ("" ≠ "" → pyLower p.category = pyLower "") ∧
      ∃ w ∈ pySplit (pyLower "inverter"),
        pyIn w (searchableText p) = true) ∧
    search_products sampleCatalog "zzzznonexistentquery" "" =
      ToolResult.notFound ("No products found matching \x27" ++
        "zzzznonexistentquery" ++ "\x27. Try different keywords.") :=
  ⟨(search_products_sound sampleCatalog "inverter" "").1 1
      [summaryOf sampleProduct] (by decide) (summaryOf sampleProduct)
      (by decide),
   ((search_products_sound sampleCatalog "zzzznonexistentquery" "").2
      (by decide)).1⟩

/-- C3: each of the five tool operations is total on string arguments — in
the embedding the four infallible ones are plain functions into `ToolResult`,
and the support redirect (whose Python body would raise `KeyError` only if the
`general` key were absent) returns a result whenever that key is present — and
every returned result carries one of the four allowed status tags. -/
theorem tool_registry_total
    (PRODUCTS : List (String × Product)) (ORDERS : List (String × Order))
    (DEPTS : List (String × Dept)) (q c pid oid topic reason act : String)
    (g : Dept) (hgen : dictGet DEPTS "general" = some g) :
    (search_products PRODUCTS q c).statusTag ∈ allowedStatusTags ∧
    (get_product_details PRODUCTS pid).statusTag ∈ allowedStatusTags ∧
    (check_order_status ORDERS oid).statusTag ∈ allowedStatusTags ∧
    (∃ r, redirect_to_human_support DEPTS topic reason = some r ∧
      r.statusTag ∈ allowedStatusTags) ∧
    (redirect_to_product_page PRODUCTS pid act).statusTag ∈
      allowedStatusTags := by
  refine ⟨?_, ?_, ?_, ?_, ?_⟩
  · simp only [search_products]
    split <;> simp [ToolResult.statusTag, allowedStatusTags]
  · unfold get_product_details
    cases dictGet PRODUCTS (pyUpper pid) <;>
      simp [ToolResult.statusTag, allowedStatusTags]
  · unfold check_order_status
    cases dictGet ORDERS (pyUpper oid) <;>
      simp [ToolResult.statusTag, allowedStatusTags]
  · unfold redirect_to_human_support
    rw [hgen]
    exact ⟨_, rfl, by simp [ToolResult.statusTag, allowedStatusTags]⟩
  · unfold redirect_to_product_page
    cases dictGet PRODUCTS (pyUpper pid) with
    | none => simp [ToolResult.statusTag, allowedStatusTags]
    | some p =>
      by_cases hb : pyLower act = "buy" <;>
        simp [hb, ToolResult.statusTag, allowedStatusTags]

/-- C3 witness: on the sample catalogs every operation returns an allowed
status tag, and the support redirect returns a result. -/
theorem tool_registry_total_witness :
    (search_products sampleCatalog "inverter" "").statusTag ∈
        allowedStatusTags ∧
    (get_product_details sampleCatalog "").statusTag ∈ allowedStatusTags ∧
    (check_order_status sampleOrders "bogus").statusTag ∈
        allowedStatusTags ∧
    (∃ r, redirect_to_human_support sampleDepts "returns" "angry" = some r ∧
      r.statusTag ∈ allowedStatusTags) ∧
    (redirect_to_product_page sampleCatalog "" "buy").statusTag ∈
      allowedStatusTags :=
  tool_registry_total sampleCatalog sampleOrders sampleDepts "inverter" ""
    "" "bogus" "returns" "angry" "buy" sampleDept (by decide)

/-- C5: for a product present in the catalog, `redirect_to_product_page`
returns `success` with action label `Purchase` and URL
`base_url / upper(id) /checkout` exactly when the action case-insensitively
equals `buy`, and action label `View` with URL `base_url / upper(id)` for the
default or any other action; for an absent product it returns `not_found`. -/
theorem redirect_to_product_page_spec
    (PRODUCTS : List (String × Product)) (pid act : String) :
    (∀ prod, dictGet PRODUCTS (pyUpper pid) = some prod →
      (pyLower act = "buy" →
        redirect_to_product_page PRODUCTS pid act =
          ToolResult.success "Purchase" prod.name
            (base_url ++ "/" ++ pyUpper pid ++ "/checkout") prod.in_stock) ∧
      (pyLower act ≠ "buy" →
        redirect_to_product_page PRODUCTS pid act =
          ToolResult.success "View" prod.name
            (base_url ++ "/" ++ pyUpper pid) prod.in_stock)) ∧
    (dictGet PRODUCTS (pyUpper pid) = none →
      redirect_to_product_page PRODUCTS pid act =
        ToolResult.notFound ("Product \x27" ++ pid ++ "\x27 not found.")) := by
  constructor
  · intro prod hkey
    constructor
    · intro hbuy
      unfold redirect_to_product_page
      rw [hkey, hbuy]
      simp
    · intro hbuy
      unfold redirect_to_product_page
      rw [hkey]
      have hb : (pyLower act == "buy") = false := by
        simp [hbuy]
      simp [hb]
  · intro hkey
    unfold redirect_to_product_page
    rw [hkey]

/-- C5 witness: on the sample catalog, `buy` (in any casing) produces the
checkout URL with label `Purchase`. -/
theorem redirect_to_product_page_spec_witness :
    redirect_to_product_page sampleCatalog "ac-001" "BUY" =
      ToolResult.success "Purchase" sampleProduct.name
        (base_url ++ "/" ++ pyUpper "ac-001" ++ "/checkout")
        sampleProduct.in_stock :=
  ((redirect_to_product_page_spec sampleCatalog "ac-001" "BUY").1
    sampleProduct (by decide)).1 (by decide)

/-- C6: `redirect_to_human_support` always returns a `redirected` result
carrying the reason, a department, and the formatted message; the department
is the mapping of the lowercased topic when that is a key and the `general`
department otherwise; the operation never returns `not_found`. -/
theorem redirect_to_human_support_spec
    (DEPTS : List (String × Dept)) (topic reason : String) (g : Dept)
    (hgen : dictGet DEPTS "general" = some g) :
    ∃ dept,
      redirect_to_human_support DEPTS topic reason =
        some (ToolResult.redirected reason dept (supportMessage dept)) ∧
      (∀ d, dictGet DEPTS (pyLower topic) = some d → dept = d) ∧
      (dictGet DEPTS (pyLower topic) = none → dept = g) ∧
      (ToolResult.redirected reason dept (supportMessage dept)).statusTag ≠
        "not_found" := by
  refine ⟨(dictGet DEPTS (pyLower topic)).getD g, ?_, ?_, ?_, ?_⟩
  · unfold redirect_to_human_support
    rw [hgen]
  · intro d hd
    rw [hd]
    rfl
  · intro hd
    rw [hd]
    rfl
  · simp [ToolResult.statusTag]

/-- C6 witness: an unrecognized topic redirects to the `general` department. -/
theorem redirect_to_human_support_spec_witness :
    ∃ dept,
      redirect_to_human_support sampleDepts "unknown-topic-xyz" "test" =
        some (ToolResult.redirected "test" dept (supportMessage dept)) ∧
      (∀ d, dictGet sampleDepts (pyLower "unknown-topic-xyz") = some d →
        dept = d) ∧
      (dictGet sampleDepts (pyLower "unknown-topic-xyz") = none →
        dept = sampleDept) ∧
      (ToolResult.redirected "test" dept (supportMessage dept)).statusTag ≠
        "not_found" :=
  redirect_to_human_support_spec sampleDepts "unknown-topic-xyz" "test"
    sampleDept (by decide)

/-- C1 counterexample: a run that emits exactly one text fragment `" "` (a
non-empty, hence truthy, string) makes `get_agent_response` return the empty
string — not the fallback — so the result of a turn with an emitted fragment
can be empty, contradicting the claim that it never is. -/
theorem get_agent_response_empty_result :
    fragments [⟨some [some " "]⟩] = [" "] ∧
    get_agent_response [⟨some [some " "]⟩] = "" ∧
    FALLBACK_RESPONSE ≠ "" := by
  refine ⟨by decide, by decide, by decide⟩

/-- C1 (amended): `get_agent_response` accumulates the emitted text fragments
in emission order; when no fragment was emitted the accumulated string is
empty and the fixed non-empty fallback apology is returned verbatim; when the
concatenation is non-empty the result is that concatenation stripped of
leading and trailing whitespace — which is the empty string exactly when at
least one fragment was emitted and every accumulated character is
whitespace. -/
theorem get_agent_response_spec (events : List AgentEvent) :
    accumulateText events = concatAll (fragments events) ∧
    (fragments events = [] →
      get_agent_response events = FALLBACK_RESPONSE) ∧
    (concatAll (fragments events) ≠ "" →
      get_agent_response events = pyStrip (concatAll (fragments events))) ∧
    (get_agent_response events = "" →
      fragments events ≠ [] ∧
        ∀ ch ∈ (concatAll (fragments events)).data,
          ch.isWhitespace = true) ∧
    FALLBACK_RESPONSE ≠ "" := by
  have hacc := accumulateText_eq events
  refine ⟨hacc, ?_, ?_, ?_, by decide⟩
  · intro hnil
    simp only [get_agent_response]
    rw [hacc, hnil]
    rfl
  · intro hne
    simp only [get_agent_response]
    rw [hacc, if_neg hne]
  · intro hres
    simp only [get_agent_response] at hres
    rw [hacc] at hres
    by_cases hc : concatAll (fragments events) = ""
    · rw [if_pos hc] at hres
      exact absurd hres (by decide)
    · rw [if_neg hc] at hres
      refine ⟨?_, pyStrip_eq_empty hres⟩
      intro hnil
      apply hc
      rw [hnil]
      rfl

/-- C1 witness: zero emitted fragments give exactly the fallback, and a run
with one ordinary fragment gives that fragment stripped. -/
theorem get_agent_response_spec_witness :
    get_agent_response [] = FALLBACK_RESPONSE ∧
    get_agent_response [⟨some [some " hi "]⟩] =
      pyStrip (concatAll (fragments [⟨some [some " hi "]⟩])) :=
  ⟨(get_agent_response_spec []).2.1 rfl,
   (get_agent_response_spec [⟨some [some " hi "]⟩]).2.2.1 (by decide)⟩

end ADK
